import Mathlib

/-!
Shallow embedding of the auto hot-update module (`auto_updater.py`) of the
lzt repository, together with theorems settling the spec claims about it.

The local file system is modelled as an association list from relative path
to MD5 digest string; the MD5 function itself is abstract (the code only ever
compares digest strings), and network effects are modelled by explicit
outcome values fed to the pure translations of the corresponding methods.
-/

namespace AutoUpdater

/-- `UpdateStatus` enum of the updater. -/
inductive UpdateStatus where
  | idle
  | checking
  | downloading
  | installing
  | completed
  | failed
  | restart_required
deriving Repr, DecidableEq

/-- `FileUpdate` dataclass: one file entry of an update manifest. -/
structure FileUpdate where
  path : String
  md5 : String
  size : Nat
  download_url : String
  version : String
  requires_restart : Bool
  description : String := ""
deriving Repr, DecidableEq

/-- `UpdateManifest` dataclass. -/
structure UpdateManifest where
  version : String
  release_date : String
  description : String
  files : List FileUpdate
  min_version : String := ""
  changelog : List String := []
deriving Repr, DecidableEq

/-- `EXCLUDED_PATHS`: files/directories the updater never touches. -/
def EXCLUDED_PATHS : List String :=
  ["data/", "logs/", "browser_data/", "uploads/", "__pycache__/", ".git/",
   "global_config.yml"]

/-- Boolean substring test, used to embed Python's `in` on strings. -/
def strContains (s pat : String) : Bool :=
  decide (pat.data <:+: s.data)

/-- Boolean prefix test on strings (`str.startswith`). -/
def strStarts (s pat : String) : Bool :=
  pat.data.isPrefixOf s.data

/-- `str.lower()`, character by character. -/
def lowerStr (s : String) : String :=
  String.mk (s.data.map Char.toLower)

/-- `str.replace('\\', '/')`: the single-character replacement used to
normalize path separators. -/
def fwdSlash (s : String) : String :=
  String.mk (s.data.map (fun c => if c == '\\' then '/' else c))

/-- Python whitespace, as stripped by `str.strip()`. -/
def isPyWhitespace (c : Char) : Bool :=
  c == ' ' || c == '\t' || c == '\n' || c == '\r' || c == '\x0b' || c == '\x0c'

/-- `str.strip()`: remove leading and trailing whitespace. -/
def strip (s : String) : String :=
  String.mk (((s.data.dropWhile isPyWhitespace).reverse.dropWhile isPyWhitespace).reverse)

/-- Local file system model: relative path to MD5 digest of its content. -/
abbrev LocalFs := List (String × String)

/-- `_calculate_file_md5`: digest of the local file at `p`, or the empty
string when the file does not exist. -/
def calculate_file_md5 (fs : LocalFs) (p : String) : String :=
  match List.lookup p fs with
  | some d => d
  | none => ""

/-- `_is_excluded`: the lower-cased, forward-slash form of `path` is checked
against every excluded entry, matching by prefix or substring. -/
def is_excluded (path : String) : Bool :=
  let path_lower := fwdSlash (lowerStr path)
  EXCLUDED_PATHS.any (fun excluded =>
    strStarts path_lower (lowerStr excluded) || strContains path_lower (lowerStr excluded))

/-- `get_files_to_update`: keep the manifest entries that are not excluded
and whose digest is blank (Python `not md5 or not md5.strip()`) or differs
from the local digest. -/
def get_files_to_update (fs : LocalFs) (manifest : UpdateManifest) : List FileUpdate :=
  manifest.files.filter (fun file_update =>
    if is_excluded file_update.path then false
    else if file_update.md5 == "" || strip file_update.md5 == "" then true
    else calculate_file_md5 fs file_update.path != file_update.md5)

/-- `Path(p).name` for forward-slash separated relative paths: the final
path component (trailing separators ignored, as in `pathlib`). -/
def pathBasename (p : String) : String :=
  let rev := p.data.reverse.dropWhile (fun c => c == '/')
  String.mk ((rev.takeWhile (fun c => c != '/')).reverse)

/-- Index of the last `.` in a character list, if any. -/
def rfindDot : List Char → Option Nat
  | [] => none
  | c :: cs =>
    match rfindDot cs with
    | some i => some (i + 1)
    | none => if c = '.' then some 0 else none

/-- `Path(p).suffix`: the final extension of the last path component,
including the dot; empty when the name has no interior dot. -/
def pathSuffix (p : String) : String :=
  let name := pathBasename p
  match rfindDot name.data with
  | none => ""
  | some i =>
    if 0 < i ∧ i < name.data.length - 1 then String.mk (name.data.drop i) else ""

/-- `HOT_UPDATABLE_EXTENSIONS`: file types updatable without a restart. -/
def HOT_UPDATABLE_EXTENSIONS : List String :=
  [".js", ".css", ".html", ".json", ".yml", ".yaml"]

/-- `RESTART_REQUIRED_EXTENSIONS`: file types whose update needs a restart. -/
def RESTART_REQUIRED_EXTENSIONS : List String :=
  [".py", ".pyd", ".so", ".dll", ".exe"]

/-- `_needs_restart`: the lower-cased extension is in the restart set. -/
def needs_restart_of (file_path : String) : Bool :=
  RESTART_REQUIRED_EXTENSIONS.contains (lowerStr (pathSuffix file_path))

/-- One raw `file_info` JSON object of the manifest payload; optional keys
are `Option`s, matching `dict.get` with a default. -/
structure RawFileInfo where
  path : String
  md5 : String
  size : Nat := 0
  download_url : String
  version : Option String := none
  requires_restart : Option Bool := none
  description : Option String := none
deriving Repr, DecidableEq

/-- Raw `data` object of the manifest response payload. -/
structure RawManifestData where
  version : Option String := none
  release_date : Option String := none
  description : Option String := none
  files : List RawFileInfo := []
  min_version : Option String := none
  changelog : Option (List String) := none
deriving Repr, DecidableEq

/-- The `FileUpdate(...)` construction inside `check_for_updates`: defaults
for the optional keys, `requires_restart` falling back to the
extension-derived value. -/
def parse_file_info (manifest_version : String) (file_info : RawFileInfo) : FileUpdate :=
  { path := file_info.path
    md5 := file_info.md5
    size := file_info.size
    download_url := file_info.download_url
    version := file_info.version.getD manifest_version
    requires_restart := file_info.requires_restart.getD (needs_restart_of file_info.path)
    description := file_info.description.getD "" }

/-- JSON payload of the manifest endpoint. -/
structure CheckPayload where
  success : Bool
  message : Option String := none
  data : Option RawManifestData := none
deriving Repr, DecidableEq

/-- Outcome of the HTTP request made by `check_for_updates`. -/
inductive CheckOutcome where
  | timeout
  | exn (msg : String)
  | response (status : Nat) (payload : CheckPayload)
deriving Repr, DecidableEq

/-- Progress fields touched by `check_for_updates`: the manifest returned
(or `none`), and the final `status`, `message`, `error` of `self.progress`. -/
structure CheckResult where
  manifest : Option UpdateManifest
  status : UpdateStatus
  message : String
  error : String := ""
deriving Repr, DecidableEq

/-- `check_for_updates`, as a function of the request outcome. The initial
`_update_progress` sets status `checking` and the checking message; each
return path then overwrites only the fields it names. -/
def check_for_updates (outcome : CheckOutcome) : CheckResult :=
  match outcome with
  | CheckOutcome.timeout =>
      { manifest := none, status := UpdateStatus.failed,
        message := "正在检查更新...", error := "检查更新超时" }
  | CheckOutcome.exn msg =>
      { manifest := none, status := UpdateStatus.failed,
        message := "正在检查更新...", error := msg }
  | CheckOutcome.response status payload =>
      if status ≠ 200 then
        { manifest := none, status := UpdateStatus.idle, message := "检查更新失败" }
      else if !payload.success then
        { manifest := none, status := UpdateStatus.idle, message := "已是最新版本" }
      else
        let manifest_data := payload.data.getD {}
        let version := manifest_data.version.getD ""
        let files := manifest_data.files.map (parse_file_info version)
        let manifest : UpdateManifest :=
          { version := version
            release_date := manifest_data.release_date.getD ""
            description := manifest_data.description.getD ""
            files := files
            min_version := manifest_data.min_version.getD ""
            changelog := manifest_data.changelog.getD [] }
        { manifest := some manifest, status := UpdateStatus.idle,
          message := "发现新版本 " ++ manifest.version }

/-- `NON_CRITICAL_FILES`: names whose MD5 mismatch is tolerated on download. -/
def NON_CRITICAL_FILES : List String := ["version.txt", "update_log.txt", "changelog.txt"]

/-- Outcome of the HTTP request made by `download_file` for one file. -/
inductive FetchOutcome where
  | error
  | response (status : Nat) (content : String)
deriving Repr, DecidableEq

/-- `download_file`: `md5Of` is the MD5 of a downloaded content value,
`fetch` the outcome of the GET on the file's download URL. Returns the
content, or `none` on failure. -/
def download_file (md5Of : String → String) (fetch : FetchOutcome)
    (file_update : FileUpdate) : Option String :=
  match fetch with
  | FetchOutcome.error => none
  | FetchOutcome.response status content =>
    if status ≠ 200 then none
    else if file_update.md5 != "" && strip file_update.md5 != "" then
      if md5Of content != file_update.md5 then
        if NON_CRITICAL_FILES.contains (pathBasename file_update.path) then some content
        else none
      else some content
    else some content

/-- Writing a file: replace the digest stored for `p`, or add the entry. -/
def fsWrite (fs : LocalFs) (p d : String) : LocalFs :=
  if (fs : List (String × String)).any (fun e => e.1 == p) then
    (fs : List (String × String)).map (fun e => if e.1 == p then (p, d) else e)
  else fs ++ [(p, d)]

/-- Result of `apply_updates`: the returned triple, the final progress
status, the backups taken, and the file system after the writes. -/
structure ApplyResult where
  success : Bool
  updated_files : List String
  needs_restart : Bool
  status : UpdateStatus
  backups : List String
  fs : LocalFs
deriving Repr, DecidableEq

/-- The per-file loop of `apply_updates`: download, backup (best effort),
write; a failed download or write returns immediately with the files
applied so far and status `failed`. `download` abstracts `download_file`
with the session, `writeOk` the success of the `open`/`write`, `backupOk`
the success of `_backup_file`. -/
def apply_updates_loop (md5Of : String → String) (download : FileUpdate → Option String)
    (writeOk backupOk : FileUpdate → Bool) :
    List FileUpdate → LocalFs → ApplyResult
  | [], fs =>
      { success := true, updated_files := [], needs_restart := false,
        status := UpdateStatus.downloading, backups := [], fs := fs }
  | file_update :: rest, fs =>
    match download file_update with
    | none =>
        { success := false, updated_files := [], needs_restart := false,
          status := UpdateStatus.failed, backups := [], fs := fs }
    | some content =>
      let bk : List String := if backupOk file_update then [file_update.path] else []
      if writeOk file_update then
        let fs1 := fsWrite fs file_update.path (md5Of content)
        let r := apply_updates_loop md5Of download writeOk backupOk rest fs1
        { r with
          updated_files := file_update.path :: r.updated_files
          needs_restart := file_update.requires_restart || r.needs_restart
          backups := bk ++ r.backups }
      else
        { success := false, updated_files := [], needs_restart := false,
          status := UpdateStatus.failed, backups := bk, fs := fs }

/-- `apply_updates`: empty input returns immediately leaving the status
`st0` untouched; otherwise the loop runs and a fully successful batch ends
in status `completed` or `restart_required`. -/
def apply_updates (md5Of : String → String) (download : FileUpdate → Option String)
    (writeOk backupOk : FileUpdate → Bool) (files_to_update : List FileUpdate)
    (fs : LocalFs) (st0 : UpdateStatus) : ApplyResult :=
  if files_to_update.isEmpty then
    { success := true, updated_files := [], needs_restart := false,
      status := st0, backups := [], fs := fs }
  else
    let r := apply_updates_loop md5Of download writeOk backupOk files_to_update fs
    if r.success then
      { r with
        status := if r.needs_restart then UpdateStatus.restart_required
                  else UpdateStatus.completed }
    else r

/-- Default `file_patterns` of `get_local_file_hashes`. -/
def DEFAULT_FILE_PATTERNS : List String :=
  ["*.py", "*.js", "*.css", "*.html", "*.yml", "*.yaml", "*.json"]

/-- Final path component of a path that may still use either separator,
as seen by `rglob` before normalization. -/
def rawBasename (p : String) : String :=
  pathBasename (fwdSlash p)

/-- `rglob(pat)` membership for the fixed `*.<ext>` patterns: the file's
name matches the pattern, i.e. ends with the pattern's suffix. -/
def rglob_matches (pat : String) (p : String) : Bool :=
  (pat.data.drop 1).isSuffixOf (rawBasename p).data

/-- `get_local_file_hashes`: for each pattern, every matching local file
whose normalized relative path is not excluded contributes its digest,
keyed by the normalized path. -/
def get_local_file_hashes (fs : LocalFs) : List (String × String) :=
  DEFAULT_FILE_PATTERNS.flatMap (fun pat =>
    ((fs : List (String × String)).filter (fun e => rglob_matches pat e.1)).filterMap
      (fun e =>
        let relative_path := fwdSlash e.1
        if is_excluded relative_path then none
        else some (relative_path, e.2)))

/-- The JSON document written to `data/file_hashes.json`. -/
structure HashLedger where
  version : String
  total_files : Nat
  files : List (String × String)
  last_updated_files : List String := []
deriving Repr, DecidableEq

/-- `save_file_hashes`: a full re-scan of the local digests, keyed by the
given version, recording the batch's updated files. -/
def save_file_hashes (fs : LocalFs) (version : String)
    (updated_files : List String) : HashLedger :=
  let all_hashes := get_local_file_hashes fs
  { version := version
    total_files := all_hashes.length
    files := all_hashes
    last_updated_files := updated_files }

/-- The result dict of `perform_update`, plus the ledger written to disk
(`none` when `save_file_hashes` was not called). -/
structure PerformResult where
  success : Bool
  message : String
  updated_files : List String
  needs_restart : Bool
  new_version : String
  saved_ledger : Option HashLedger := none
deriving Repr, DecidableEq

/-- `perform_update`, given the manifest produced by the check step (or
`none`): plan with `get_files_to_update`, apply, and persist the hash
ledger only after a successful apply. -/
def perform_update (md5Of : String → String) (fs : LocalFs)
    (manifest? : Option UpdateManifest) (download : FileUpdate → Option String)
    (writeOk backupOk : FileUpdate → Bool) : PerformResult :=
  match manifest? with
  | none =>
      { success := true, message := "没有可用更新", updated_files := [],
        needs_restart := false, new_version := "" }
  | some manifest =>
    let files_to_update := get_files_to_update fs manifest
    if files_to_update.isEmpty then
      { success := true, message := "所有文件已是最新", updated_files := [],
        needs_restart := false, new_version := manifest.version }
    else
      let r := apply_updates md5Of download writeOk backupOk files_to_update fs
        UpdateStatus.idle
      if r.success then
        { success := true
          message := "成功更新"
          updated_files := r.updated_files
          needs_restart := r.needs_restart
          new_version := manifest.version
          saved_ledger := some (save_file_hashes r.fs manifest.version r.updated_files) }
      else
        { success := false
          message := "更新过程中出现错误"
          updated_files := r.updated_files
          needs_restart := r.needs_restart
          new_version := manifest.version }

/-- `UpdateProgress` dataclass (fields the callbacks observe). -/
structure UpdateProgress where
  status : UpdateStatus
  current_file : String := ""
  current_index : Nat := 0
  total_files : Nat := 0
  downloaded_bytes : Nat := 0
  total_bytes : Nat := 0
  message : String := ""
  error : String := ""
deriving Repr

/-- One registered progress callback: it may raise (`Except.error`). -/
abbrev ProgressCallback := UpdateProgress → Except String Unit

/-- Invoking one callback under the `try/except` of `_notify_progress`:
an exception becomes a logged error line, never a propagated failure. -/
def run_callback (cb : ProgressCallback) (p : UpdateProgress) : Option String :=
  match cb p with
  | Except.ok _ => none
  | Except.error e => some ("进度回调执行失败: " ++ e)

/-- `_notify_progress`: every registered callback is invoked with the same
progress value; the function is total and returns the per-callback logged
errors. -/
def notify_progress (callbacks : List ProgressCallback)
    (p : UpdateProgress) : List (Option String) :=
  callbacks.map (fun cb => run_callback cb p)

/-! Derived definitions and helper lemmas used by the proofs. -/

/-- A file is processed without fatal error: its download yields content and
the write succeeds. -/
def file_ok (download : FileUpdate → Option String) (writeOk : FileUpdate → Bool)
    (fu : FileUpdate) : Bool :=
  (download fu).isSome && writeOk fu

/-- The file-system effect of successfully installing a list of files. -/
def applyWrites (md5Of : String → String) (download : FileUpdate → Option String) :
    List FileUpdate → LocalFs → LocalFs
  | [], fs => fs
  | fu :: rest, fs =>
      applyWrites md5Of download rest (fsWrite fs fu.path (md5Of ((download fu).getD "")))

/-! Sample data used by the witnesses. -/

def sampleFs : LocalFs := [("a.py", "aaa"), ("same.py", "bbb")]

def fuA : FileUpdate :=
  { path := "a.py", md5 := "zzz", size := 1, download_url := "u",
    version := "v", requires_restart := true }

def fuSame : FileUpdate :=
  { path := "same.py", md5 := "bbb", size := 1, download_url := "u",
    version := "v", requires_restart := true }

def fuMissing : FileUpdate :=
  { path := "missing.py", md5 := "ccc", size := 1, download_url := "u",
    version := "v", requires_restart := true }

def fuExcluded : FileUpdate :=
  { path := "Data\\x.py", md5 := "ddd", size := 1, download_url := "u",
    version := "v", requires_restart := true }

def sampleManifest : UpdateManifest :=
  { version := "v2", release_date := "2024-01-01", description := "",
    files := [fuA, fuSame, fuMissing, fuExcluded] }

def fuB : FileUpdate :=
  { path := "b.py", md5 := "mb", size := 1, download_url := "u",
    version := "v", requires_restart := true }

def fuC : FileUpdate :=
  { path := "c.css", md5 := "mc", size := 1, download_url := "u",
    version := "v", requires_restart := false }

def fuCss : FileUpdate :=
  { path := "style.css", md5 := "m1", size := 1, download_url := "u",
    version := "v", requires_restart := false }

def fuPy : FileUpdate :=
  { path := "core.py", md5 := "m2", size := 1, download_url := "u",
    version := "v", requires_restart := true }

def rawCss : RawFileInfo :=
  { path := "style.css", md5 := "m1", download_url := "u" }

def rawPy : RawFileInfo :=
  { path := "core.py", md5 := "m2", download_url := "u" }

def sampleMd5 : String → String := fun _ => "h"

def sampleDownload : FileUpdate → Option String :=
  fun fu => if fu.path == "b.py" then none else some "content"

theorem apply_updates_loop_spec (md5Of : String → String)
    (download : FileUpdate → Option String) (writeOk backupOk : FileUpdate → Bool) :
    ∀ (files : List FileUpdate) (fs : LocalFs),
      (apply_updates_loop md5Of download writeOk backupOk files fs).success
          = files.all (file_ok download writeOk) ∧
      (apply_updates_loop md5Of download writeOk backupOk files fs).updated_files
          = (files.takeWhile (file_ok download writeOk)).map (fun fu => fu.path) ∧
      (apply_updates_loop md5Of download writeOk backupOk files fs).needs_restart
          = (files.takeWhile (file_ok download writeOk)).any (fun fu => fu.requires_restart) ∧
      (apply_updates_loop md5Of download writeOk backupOk files fs).status
          = (if files.all (file_ok download writeOk) then UpdateStatus.downloading
             else UpdateStatus.failed) ∧
      (apply_updates_loop md5Of download writeOk backupOk files fs).fs
          = applyWrites md5Of download (files.takeWhile (file_ok download writeOk)) fs := by
  intro files
  induction files with
  | nil =>
    intro fs
    simp [apply_updates_loop, applyWrites]
  | cons fu rest ih =>
    intro fs
    cases hd : download fu with
    | none =>
      have hok : file_ok download writeOk fu = false := by
        simp [file_ok, hd]
      simp [apply_updates_loop, hd, hok, List.takeWhile, applyWrites]
    | some content =>
      cases hw : writeOk fu with
      | false =>
        have hok : file_ok download writeOk fu = false := by
          simp [file_ok, hd, hw]
        simp [apply_updates_loop, hd, hw, hok, List.takeWhile, applyWrites]
      | true =>
        have hok : file_ok download writeOk fu = true := by
          simp [file_ok, hd, hw]
        have hrec := ih (fsWrite fs fu.path (md5Of content))
        simp [apply_updates_loop, hd, hw, hok, List.takeWhile, applyWrites,
          hrec.1, hrec.2.1, hrec.2.2.1, hrec.2.2.2.1, hrec.2.2.2.2]

theorem takeWhile_append_break {α : Type} (q : α → Bool) :
    ∀ (pre : List α) (fk : α) (post : List α), (∀ x ∈ pre, q x = true) → q fk = false →
      (pre ++ fk :: post).takeWhile q = pre := by
  intro pre
  induction pre with
  | nil =>
    intro fk post _ hk
    simp [List.takeWhile, hk]
  | cons a l ih =>
    intro fk post hpre hk
    have ha := hpre a (by simp)
    simp only [List.cons_append, List.takeWhile, ha]
    simpa using ih fk post (fun x hx => hpre x (by simp [hx])) hk

theorem strip_empty : strip "" = "" := rfl

theorem empty_of_strip_ne {s : String} (h : strip s ≠ "") : s ≠ "" := by
  intro hs
  rw [hs] at h
  exact h strip_empty

theorem blank_cond_iff (s : String) :
    ((s == "") || (strip s == "")) = true ↔ strip s = "" := by
  constructor
  · intro h
    rcases Bool.or_eq_true_iff.mp h with h1 | h1
    · have hs : s = "" := by simpa using h1
      rw [hs]
      exact strip_empty
    · simpa using h1
  · intro h
    exact Bool.or_eq_true_iff.mpr (Or.inr (by simpa using h))

theorem apply_updates_spec (md5Of : String → String)
    (download : FileUpdate → Option String) (writeOk backupOk : FileUpdate → Bool)
    (files : List FileUpdate) (fs : LocalFs) (st0 : UpdateStatus) :
    (apply_updates md5Of download writeOk backupOk files fs st0).success
        = files.all (file_ok download writeOk) ∧
    (apply_updates md5Of download writeOk backupOk files fs st0).updated_files
        = (files.takeWhile (file_ok download writeOk)).map (fun fu => fu.path) ∧
    (apply_updates md5Of download writeOk backupOk files fs st0).needs_restart
        = (files.takeWhile (file_ok download writeOk)).any (fun fu => fu.requires_restart) ∧
    (apply_updates md5Of download writeOk backupOk files fs st0).status
        = (if files.isEmpty then st0
           else if files.all (file_ok download writeOk) then
             (if (files.takeWhile (file_ok download writeOk)).any (fun fu => fu.requires_restart)
              then UpdateStatus.restart_required else UpdateStatus.completed)
           else UpdateStatus.failed) ∧
    (apply_updates md5Of download writeOk backupOk files fs st0).fs
        = applyWrites md5Of download (files.takeWhile (file_ok download writeOk)) fs := by
  rcases hl : apply_updates_loop md5Of download writeOk backupOk files fs with
    ⟨lsucc, lupd, lrst, lst, lbk, lfs⟩
  have h := apply_updates_loop_spec md5Of download writeOk backupOk files fs
  rw [hl] at h
  rcases h with ⟨h1, h2, h3, h4, h5⟩
  cases files with
  | nil => simp [apply_updates, List.takeWhile, applyWrites]
  | cons a l =>
    have hne : (a :: l).isEmpty = false := rfl
    simp only [apply_updates, hne, Bool.false_eq_true, if_false, hl]
    cases hs : lsucc with
    | false =>
      rw [hs] at h1
      simp [← h1, h2, h3, h5, h4, hs]
    | true =>
      rw [hs] at h1 h4
      simp [← h1, h2, h3, h5, hs]
      rw [show lrst = (List.takeWhile (file_ok download writeOk) (a :: l)).any
            (fun fu => fu.requires_restart) from h3]
      simp [List.any_eq_true]

/-! Claim theorems. -/

/-- C1: `get_files_to_update` keeps the manifest order (its plan is a
sublist of `manifest.files`) and contains exactly the non-excluded entries
whose manifest digest is blank/whitespace or differs (case-sensitive string
comparison) from the local digest; an entry whose local digest equals the
manifest digest is dropped, and a missing local file (digest sentinel `""`)
is always stale when the manifest digest is non-empty. -/
theorem get_files_to_update_spec (fs : LocalFs) (manifest : UpdateManifest) :
    (get_files_to_update fs manifest).Sublist manifest.files ∧
    (∀ fu : FileUpdate,
      fu ∈ get_files_to_update fs manifest ↔
        fu ∈ manifest.files ∧ is_excluded fu.path = false ∧
          (strip fu.md5 = "" ∨ calculate_file_md5 fs fu.path ≠ fu.md5)) ∧
    (∀ fu ∈ manifest.files, is_excluded fu.path = false →
      List.lookup fu.path fs = none → fu.md5 ≠ "" →
      calculate_file_md5 fs fu.path = "" ∧ fu ∈ get_files_to_update fs manifest) := by
  refine ⟨List.filter_sublist _, ?_, ?_⟩
  · intro fu
    rw [get_files_to_update, List.mem_filter]
    apply and_congr_right
    intro _
    cases hex : is_excluded fu.path with
    | true => simp [hex]
    | false =>
      cases hbl : ((fu.md5 == "") || (strip fu.md5 == "")) with
      | true =>
        have hstrip := (blank_cond_iff fu.md5).mp hbl
        simp [hex, hbl, hstrip]
      | false =>
        have hstrip : ¬ strip fu.md5 = "" := by
          intro h
          rw [(blank_cond_iff fu.md5).mpr h] at hbl
          cases hbl
        simp [hex, hbl, hstrip, bne_iff_ne]
  · intro fu hmem hex hlook hmd5
    have hdig : calculate_file_md5 fs fu.path = "" := by
      rw [calculate_file_md5, hlook]
    refine ⟨hdig, ?_⟩
    rw [get_files_to_update, List.mem_filter]
    refine ⟨hmem, ?_⟩
    cases hbl : ((fu.md5 == "") || (strip fu.md5 == "")) with
    | true => simp [hex, hbl]
    | false =>
      simp [hex, hbl, hdig, bne_iff_ne]
      exact Ne.symm hmd5

theorem get_files_to_update_spec_witness :
    (fuA ∈ get_files_to_update sampleFs sampleManifest) ∧
    (fuSame ∉ get_files_to_update sampleFs sampleManifest) ∧
    (calculate_file_md5 sampleFs fuMissing.path = "" ∧
      fuMissing ∈ get_files_to_update sampleFs sampleManifest) := by
  have h := get_files_to_update_spec sampleFs sampleManifest
  refine ⟨?_, ?_, ?_⟩
  · exact (h.2.1 fuA).mpr ⟨by decide, by decide, Or.inr (by decide)⟩
  · intro hc
    have := (h.2.1 fuSame).mp hc
    rcases this.2.2 with hbad | hbad
    · exact absurd hbad (by decide)
    · exact absurd rfl hbad
  · exact h.2.2 fuMissing (by decide) (by decide) (by decide) (by decide)

/-- C4: a `FileUpdate` whose path, in lower-cased forward-slash form, starts
with or contains as a substring an entry of the exclusion set is never
included in the plan of `get_files_to_update`, whatever the local state. -/
theorem excluded_never_planned (fs : LocalFs) (manifest : UpdateManifest) (fu : FileUpdate)
    (h : ∃ e ∈ EXCLUDED_PATHS,
        strStarts (fwdSlash (lowerStr fu.path)) (lowerStr e) = true ∨
        (lowerStr e).data <:+: (fwdSlash (lowerStr fu.path)).data) :
    fu ∉ get_files_to_update fs manifest := by
  have hex : is_excluded fu.path = true := by
    simp only [is_excluded]
    apply List.any_eq_true.mpr
    rcases h with ⟨e, he, hcase⟩
    refine ⟨e, he, ?_⟩
    rcases hcase with h1 | h1
    · exact Bool.or_eq_true_iff.mpr (Or.inl h1)
    · exact Bool.or_eq_true_iff.mpr (Or.inr (by rw [strContains]; exact decide_eq_true h1))
  intro hmem
  rw [get_files_to_update, List.mem_filter] at hmem
  have := hmem.2
  simp [hex] at this

theorem excluded_never_planned_witness :
    fuExcluded ∉ get_files_to_update sampleFs sampleManifest :=
  excluded_never_planned sampleFs sampleManifest fuExcluded (by decide)

/-- C2: `apply_updates` processes its input strictly in order; when every
file of `pre` downloads and writes successfully and the next file `fk`
fails to download or to write, the call returns failure with exactly the
paths of `pre` applied (in order), the restart flag accumulated over `pre`,
and status `failed`; moreover the resulting local file system is exactly the
initial one with the files of `pre` written — so the files after `fk` are
never written (the whole result is independent of `post`) and the
already-applied files of `pre` stay in place, with no rollback. -/
theorem apply_updates_stops_at_failure (md5Of : String → String)
    (download : FileUpdate → Option String) (writeOk backupOk : FileUpdate → Bool)
    (fs : LocalFs) (st0 : UpdateStatus)
    (pre : List FileUpdate) (fk : FileUpdate) (post : List FileUpdate)
    (hpre : ∀ fu ∈ pre, download fu ≠ none ∧ writeOk fu = true)
    (hk : download fk = none ∨ writeOk fk = false) :
    (apply_updates md5Of download writeOk backupOk (pre ++ fk :: post) fs st0).success
        = false ∧
    (apply_updates md5Of download writeOk backupOk (pre ++ fk :: post) fs st0).updated_files
        = pre.map (fun fu => fu.path) ∧
    (apply_updates md5Of download writeOk backupOk (pre ++ fk :: post) fs st0).needs_restart
        = pre.any (fun fu => fu.requires_restart) ∧
    (apply_updates md5Of download writeOk backupOk (pre ++ fk :: post) fs st0).status
        = UpdateStatus.failed ∧
    (apply_updates md5Of download writeOk backupOk (pre ++ fk :: post) fs st0).fs
        = applyWrites md5Of download pre fs := by
  have hqpre : ∀ x ∈ pre, file_ok download writeOk x = true := by
    intro x hx
    rcases hpre x hx with ⟨h1, h2⟩
    simp [file_ok, h2, Option.isSome_iff_ne_none, h1]
  have hqk : file_ok download writeOk fk = false := by
    rcases hk with h1 | h1 <;> simp [file_ok, h1]
  have htw := takeWhile_append_break (file_ok download writeOk) pre fk post hqpre hqk
  have hall : (pre ++ fk :: post).all (file_ok download writeOk) = false := by
    simp [List.all_append, List.all_cons, hqk]
  have hne : (pre ++ fk :: post).isEmpty = false := by
    cases pre <;> rfl
  rcases apply_updates_spec md5Of download writeOk backupOk (pre ++ fk :: post) fs st0 with
    ⟨h1, h2, h3, h4, h5⟩
  refine ⟨by rw [h1, hall], by rw [h2, htw], by rw [h3, htw], ?_, by rw [h5, htw]⟩
  rw [h4, hne, hall]
  simp

theorem apply_updates_stops_at_failure_witness :
    (apply_updates sampleMd5 sampleDownload (fun _ => true) (fun _ => true)
        [fuA, fuB, fuC] [] UpdateStatus.idle).success = false ∧
    (apply_updates sampleMd5 sampleDownload (fun _ => true) (fun _ => true)
        [fuA, fuB, fuC] [] UpdateStatus.idle).updated_files = ["a.py"] ∧
    (apply_updates sampleMd5 sampleDownload (fun _ => true) (fun _ => true)
        [fuA, fuB, fuC] [] UpdateStatus.idle).needs_restart = true ∧
    (apply_updates sampleMd5 sampleDownload (fun _ => true) (fun _ => true)
        [fuA, fuB, fuC] [] UpdateStatus.idle).status = UpdateStatus.failed ∧
    (apply_updates sampleMd5 sampleDownload (fun _ => true) (fun _ => true)
        [fuA, fuB, fuC] [] UpdateStatus.idle).fs = [("a.py", "h")] := by
  have h := apply_updates_stops_at_failure sampleMd5 sampleDownload
    (fun _ => true) (fun _ => true) [] UpdateStatus.idle [fuA] fuB [fuC]
    (by decide) (Or.inl (by decide))
  simp only [List.cons_append, List.nil_append] at h
  obtain ⟨h1, h2, h3, h4, h5⟩ := h
  refine ⟨h1, ?_, ?_, h4, ?_⟩
  · rw [h2]; decide
  · rw [h3]; decide
  · rw [h5]; decide

/-- C6: the aggregate `needs_restart` of `apply_updates` is true iff some
applied file (the processed prefix, which is exactly what `updated_files`
reports) carries a true `requires_restart` flag; and a manifest entry that
omits the flag gets it derived from the file's extension: true exactly for
the restart extension set, false for every hot-updatable extension. -/
theorem needs_restart_aggregate (md5Of : String → String)
    (download : FileUpdate → Option String) (writeOk backupOk : FileUpdate → Bool)
    (files : List FileUpdate) (fs : LocalFs) (st0 : UpdateStatus) :
    ((apply_updates md5Of download writeOk backupOk files fs st0).updated_files
        = (files.takeWhile (file_ok download writeOk)).map (fun fu => fu.path) ∧
      ((apply_updates md5Of download writeOk backupOk files fs st0).needs_restart = true ↔
        ∃ fu ∈ files.takeWhile (file_ok download writeOk), fu.requires_restart = true)) ∧
    (∀ (v : String) (fi : RawFileInfo), fi.requires_restart = none →
      (parse_file_info v fi).requires_restart
        = RESTART_REQUIRED_EXTENSIONS.contains (lowerStr (pathSuffix fi.path))) ∧
    (∀ p : String, lowerStr (pathSuffix p) ∈ HOT_UPDATABLE_EXTENSIONS →
      needs_restart_of p = false) := by
  rcases apply_updates_spec md5Of download writeOk backupOk files fs st0 with
    ⟨_, h2, h3, _, _⟩
  refine ⟨⟨h2, ?_⟩, ?_, ?_⟩
  · rw [h3]
    exact List.any_eq_true
  · intro v fi hfi
    simp [parse_file_info, hfi, needs_restart_of]
  · intro p hp
    rw [needs_restart_of]
    rcases (by simpa [HOT_UPDATABLE_EXTENSIONS] using hp :
        lowerStr (pathSuffix p) = ".js" ∨ lowerStr (pathSuffix p) = ".css" ∨
        lowerStr (pathSuffix p) = ".html" ∨ lowerStr (pathSuffix p) = ".json" ∨
        lowerStr (pathSuffix p) = ".yml" ∨ lowerStr (pathSuffix p) = ".yaml") with
      h | h | h | h | h | h <;> rw [h] <;> decide

theorem needs_restart_aggregate_witness :
    (apply_updates sampleMd5 (fun _ => some "content") (fun _ => true) (fun _ => true)
        [fuCss] [] UpdateStatus.idle).needs_restart = false ∧
    (apply_updates sampleMd5 (fun _ => some "content") (fun _ => true) (fun _ => true)
        [fuPy, fuCss] [] UpdateStatus.idle).needs_restart = true ∧
    (parse_file_info "v" rawCss).requires_restart = false ∧
    (parse_file_info "v" rawPy).requires_restart = true := by
  have hc := needs_restart_aggregate sampleMd5 (fun _ => some "content")
    (fun _ => true) (fun _ => true) [fuCss] [] UpdateStatus.idle
  have hp := needs_restart_aggregate sampleMd5 (fun _ => some "content")
    (fun _ => true) (fun _ => true) [fuPy, fuCss] [] UpdateStatus.idle
  refine ⟨?_, ?_, ?_, ?_⟩
  · apply Bool.eq_false_iff.mpr
    intro hcontra
    exact absurd (hc.1.2.mp hcontra) (by decide)
  · exact hp.1.2.mpr ⟨fuPy, by decide, rfl⟩
  · rw [hc.2.1 "v" rawCss rfl]
    decide
  · rw [hc.2.1 "v" rawPy rfl]
    decide

/-- C8: best-effort failures do not abort the pipeline. Whether backups
succeed or fail has no effect on the outcome of applying updates (success,
applied files, restart flag, status, resulting file system); and
`_notify_progress` invokes every registered callback with the same progress
value, an exception of one callback being turned into a logged message
rather than propagated or allowed to skip the remaining callbacks. -/
theorem best_effort_failures (md5Of : String → String)
    (download : FileUpdate → Option String) (writeOk b1 b2 : FileUpdate → Bool)
    (files : List FileUpdate) (fs : LocalFs) (st0 : UpdateStatus)
    (callbacks : List ProgressCallback) (p : UpdateProgress) :
    ((apply_updates md5Of download writeOk b1 files fs st0).success
        = (apply_updates md5Of download writeOk b2 files fs st0).success ∧
      (apply_updates md5Of download writeOk b1 files fs st0).updated_files
        = (apply_updates md5Of download writeOk b2 files fs st0).updated_files ∧
      (apply_updates md5Of download writeOk b1 files fs st0).needs_restart
        = (apply_updates md5Of download writeOk b2 files fs st0).needs_restart ∧
      (apply_updates md5Of download writeOk b1 files fs st0).status
        = (apply_updates md5Of download writeOk b2 files fs st0).status ∧
      (apply_updates md5Of download writeOk b1 files fs st0).fs
        = (apply_updates md5Of download writeOk b2 files fs st0).fs) ∧
    ((notify_progress callbacks p).length = callbacks.length ∧
      ∀ i : Nat, (notify_progress callbacks p)[i]?
        = (callbacks[i]?).map (fun cb => run_callback cb p)) := by
  rcases apply_updates_spec md5Of download writeOk b1 files fs st0 with
    ⟨a1, a2, a3, a4, a5⟩
  rcases apply_updates_spec md5Of download writeOk b2 files fs st0 with
    ⟨c1, c2, c3, c4, c5⟩
  refine ⟨⟨?_, ?_, ?_, ?_, ?_⟩, ?_, ?_⟩
  · rw [a1, c1]
  · rw [a2, c2]
  · rw [a3, c3]
  · rw [a4, c4]
  · rw [a5, c5]
  · simp [notify_progress]
  · intro i
    simp [notify_progress]

theorem best_effort_failures_witness :
    ((notify_progress [fun _ => Except.error "boom", fun _ => Except.ok ()]
        { status := UpdateStatus.downloading })[0]?
      = some (some ("进度回调执行失败: boom"))) ∧
    ((notify_progress [fun _ => Except.error "boom", fun _ => Except.ok ()]
        { status := UpdateStatus.downloading })[1]?
      = some none) := by
  have h := (best_effort_failures sampleMd5 (fun _ => none) (fun _ => true)
    (fun _ => true) (fun _ => true) [] [] UpdateStatus.idle
    [fun _ => Except.error "boom", fun _ => Except.ok ()]
    { status := UpdateStatus.downloading }).2.2
  constructor
  · rw [h 0]; rfl
  · rw [h 1]; rfl

/-- C3: `download_file` returns the fetched bytes when the manifest md5 is
blank (verification skipped) or when the recomputed digest matches; on a
mismatch it still returns the bytes iff the file's basename is in the fixed
non-critical list, and returns `none` otherwise; a non-200 status or a
transport exception also yield `none`. -/
theorem download_file_spec (md5Of : String → String) (fu : FileUpdate) :
    (download_file md5Of FetchOutcome.error fu = none) ∧
    (∀ (st : Nat) (content : String), st ≠ 200 →
      download_file md5Of (FetchOutcome.response st content) fu = none) ∧
    (∀ content : String, strip fu.md5 = "" →
      download_file md5Of (FetchOutcome.response 200 content) fu = some content) ∧
    (∀ content : String, md5Of content = fu.md5 →
      download_file md5Of (FetchOutcome.response 200 content) fu = some content) ∧
    (∀ content : String, strip fu.md5 ≠ "" → md5Of content ≠ fu.md5 →
      NON_CRITICAL_FILES.contains (pathBasename fu.path) = true →
      download_file md5Of (FetchOutcome.response 200 content) fu = some content) ∧
    (∀ content : String, strip fu.md5 ≠ "" → md5Of content ≠ fu.md5 →
      NON_CRITICAL_FILES.contains (pathBasename fu.path) = false →
      download_file md5Of (FetchOutcome.response 200 content) fu = none) := by
  refine ⟨rfl, ?_, ?_, ?_, ?_, ?_⟩
  · intro st content h
    simp [download_file, h]
  · intro content h
    simp [download_file, h]
  · intro content h
    simp [download_file, h]
  · intro content h1 h2 h3
    have h0 : fu.md5 ≠ "" := empty_of_strip_ne h1
    simp [download_file, bne_iff_ne, h0, h1, h2, h3]
    simpa using h3
  · intro content h1 h2 h3
    have h0 : fu.md5 ≠ "" := empty_of_strip_ne h1
    simp [download_file, bne_iff_ne, h0, h1, h2, h3]
    simpa using h3

theorem download_file_spec_witness :
    (download_file sampleMd5 (FetchOutcome.response 404 "c") fuA = none) ∧
    (download_file sampleMd5 (FetchOutcome.response 200 "c")
        { fuA with md5 := "  " } = some "c") ∧
    (download_file sampleMd5 (FetchOutcome.response 200 "c")
        { fuA with md5 := "h" } = some "c") ∧
    (download_file sampleMd5 (FetchOutcome.response 200 "c")
        { fuA with path := "static/version.txt" } = some "c") ∧
    (download_file sampleMd5 (FetchOutcome.response 200 "c") fuA = none) := by
  refine ⟨?_, ?_, ?_, ?_, ?_⟩
  · exact (download_file_spec sampleMd5 fuA).2.1 404 "c" (by decide)
  · exact (download_file_spec sampleMd5 { fuA with md5 := "  " }).2.2.1 "c" (by decide)
  · exact (download_file_spec sampleMd5 { fuA with md5 := "h" }).2.2.2.1 "c" (by decide)
  · exact (download_file_spec sampleMd5 { fuA with path := "static/version.txt" }).2.2.2.2.1
      "c" (by decide) (by decide) (by decide)
  · exact (download_file_spec sampleMd5 fuA).2.2.2.2.2 "c" (by decide) (by decide) (by decide)

/-- C10: the non-critical allow-list is matched on the final path component
only: with a non-blank manifest digest and a digest mismatch on the fetched
bytes, `download_file` returns the bytes whenever the basename of the path
is `version.txt`, `update_log.txt` or `changelog.txt` (wherever the file
sits), and returns `none` for every other basename. -/
theorem non_critical_matched_on_basename (md5Of : String → String) (fu : FileUpdate)
    (content : String)
    (hstrip : strip fu.md5 ≠ "") (hmm : md5Of content ≠ fu.md5) :
    ((pathBasename fu.path = "version.txt" ∨ pathBasename fu.path = "update_log.txt" ∨
        pathBasename fu.path = "changelog.txt") →
      download_file md5Of (FetchOutcome.response 200 content) fu = some content) ∧
    (pathBasename fu.path ≠ "version.txt" → pathBasename fu.path ≠ "update_log.txt" →
      pathBasename fu.path ≠ "changelog.txt" →
      download_file md5Of (FetchOutcome.response 200 content) fu = none) := by
  have h0 : fu.md5 ≠ "" := empty_of_strip_ne hstrip
  constructor
  · intro h
    have hc : NON_CRITICAL_FILES.contains (pathBasename fu.path) = true := by
      simp only [NON_CRITICAL_FILES]
      rcases h with h | h | h <;> rw [h] <;> decide
    simp [download_file, bne_iff_ne, h0, hstrip, hmm, hc]
    simpa using hc
  · intro h1 h2 h3
    have hc : NON_CRITICAL_FILES.contains (pathBasename fu.path) = false := by
      apply Bool.eq_false_iff.mpr
      intro hcontra
      have : pathBasename fu.path ∈ NON_CRITICAL_FILES := by simpa using hcontra
      simp [NON_CRITICAL_FILES] at this
      rcases this with h | h | h
      · exact h1 h
      · exact h2 h
      · exact h3 h
    simp [download_file, bne_iff_ne, h0, hstrip, hmm, hc]
    simpa using hc

theorem non_critical_matched_on_basename_witness :
    (download_file sampleMd5 (FetchOutcome.response 200 "c")
        { fuA with path := "some/deep/dir/changelog.txt" } = some "c") ∧
    (download_file sampleMd5 (FetchOutcome.response 200 "c")
        { fuA with path := "some/deep/dir/core.py" } = none) := by
  constructor
  · exact (non_critical_matched_on_basename sampleMd5
      { fuA with path := "some/deep/dir/changelog.txt" } "c" (by decide) (by decide)).1
      (Or.inr (Or.inr (by decide)))
  · exact (non_critical_matched_on_basename sampleMd5
      { fuA with path := "some/deep/dir/core.py" } "c" (by decide) (by decide)).2
      (by decide) (by decide) (by decide)

/-- C5: `perform_update` persists the hash ledger iff the apply step
succeeded for the whole batch: on success the ledger written is a full
re-scan of the post-apply local digests keyed by the manifest's version;
on a failed apply (even one that applied some files) or when the apply step
never runs, no ledger is written. -/
theorem ledger_saved_iff_success (md5Of : String → String) (fs : LocalFs)
    (manifest : UpdateManifest) (download : FileUpdate → Option String)
    (writeOk backupOk : FileUpdate → Bool) :
    ((perform_update md5Of fs none download writeOk backupOk).saved_ledger = none) ∧
    ((perform_update md5Of fs (some manifest) download writeOk backupOk).saved_ledger.isSome
        = true ↔
      (get_files_to_update fs manifest ≠ [] ∧
        (apply_updates md5Of download writeOk backupOk (get_files_to_update fs manifest)
          fs UpdateStatus.idle).success = true)) ∧
    (get_files_to_update fs manifest ≠ [] →
      (apply_updates md5Of download writeOk backupOk (get_files_to_update fs manifest)
          fs UpdateStatus.idle).success = true →
      (perform_update md5Of fs (some manifest) download writeOk backupOk).saved_ledger
        = some { version := manifest.version
                 total_files := (get_local_file_hashes
                   (apply_updates md5Of download writeOk backupOk
                     (get_files_to_update fs manifest) fs UpdateStatus.idle).fs).length
                 files := get_local_file_hashes
                   (apply_updates md5Of download writeOk backupOk
                     (get_files_to_update fs manifest) fs UpdateStatus.idle).fs
                 last_updated_files := (apply_updates md5Of download writeOk backupOk
                   (get_files_to_update fs manifest) fs UpdateStatus.idle).updated_files }) ∧
    ((apply_updates md5Of download writeOk backupOk (get_files_to_update fs manifest)
        fs UpdateStatus.idle).success = false →
      (perform_update md5Of fs (some manifest) download writeOk backupOk).saved_ledger
        = none) := by
  refine ⟨rfl, ?_, ?_, ?_⟩
  · cases hpl : (get_files_to_update fs manifest).isEmpty with
    | true =>
      have hnil : get_files_to_update fs manifest = [] := by
        simpa [List.isEmpty_iff] using hpl
      simp [perform_update, hpl, hnil]
    | false =>
      have hne : get_files_to_update fs manifest ≠ [] := by
        intro hc
        rw [hc] at hpl
        cases hpl
      cases hs : (apply_updates md5Of download writeOk backupOk
          (get_files_to_update fs manifest) fs UpdateStatus.idle).success with
      | true => simp [perform_update, hpl, hs, hne]
      | false => simp [perform_update, hpl, hs, hne]
  · intro hne hs
    have hpl : (get_files_to_update fs manifest).isEmpty = false := by
      simpa [Bool.eq_false_iff, List.isEmpty_iff] using hne
    simp [perform_update, hpl, hs, save_file_hashes]
  · intro hs
    cases hpl : (get_files_to_update fs manifest).isEmpty with
    | true =>
      have hnil : get_files_to_update fs manifest = [] := by
        simpa [List.isEmpty_iff] using hpl
      rcases apply_updates_spec md5Of download writeOk backupOk
        (get_files_to_update fs manifest) fs UpdateStatus.idle with ⟨h1, _⟩
      rw [hs, hnil] at h1
      cases h1
    | false => simp [perform_update, hpl, hs]

theorem ledger_saved_iff_success_witness :
    ((perform_update sampleMd5 sampleFs (some sampleManifest) (fun _ => none)
        (fun _ => true) (fun _ => true)).saved_ledger = none) ∧
    ((perform_update sampleMd5 sampleFs (some sampleManifest) (fun _ => some "content")
        (fun _ => true) (fun _ => true)).saved_ledger
      = some { version := "v2"
               total_files := (get_local_file_hashes
                 (apply_updates sampleMd5 (fun _ => some "content") (fun _ => true)
                   (fun _ => true) (get_files_to_update sampleFs sampleManifest)
                   sampleFs UpdateStatus.idle).fs).length
               files := get_local_file_hashes
                 (apply_updates sampleMd5 (fun _ => some "content") (fun _ => true)
                   (fun _ => true) (get_files_to_update sampleFs sampleManifest)
                   sampleFs UpdateStatus.idle).fs
               last_updated_files := (apply_updates sampleMd5 (fun _ => some "content")
                 (fun _ => true) (fun _ => true)
                 (get_files_to_update sampleFs sampleManifest)
                 sampleFs UpdateStatus.idle).updated_files }) := by
  constructor
  · exact (ledger_saved_iff_success sampleMd5 sampleFs sampleManifest (fun _ => none)
      (fun _ => true) (fun _ => true)).2.2.2 (by decide)
  · exact (ledger_saved_iff_success sampleMd5 sampleFs sampleManifest
      (fun _ => some "content") (fun _ => true) (fun _ => true)).2.2.1
      (by decide) (by decide)

/-- C7 counterexample: contrary to the claim that a transport timeout does
not enter a failure state, `check_for_updates` on a timeout does set the
progress status to `failed` (while still returning no manifest). -/
theorem check_timeout_enters_failed_state :
    (check_for_updates CheckOutcome.timeout).manifest = none ∧
    ¬ (check_for_updates CheckOutcome.timeout).status ≠ UpdateStatus.failed :=
  ⟨rfl, fun h => h rfl⟩

/-- C7 (amended): a transport timeout makes `check_for_updates` return no
manifest but sets the progress status to `failed`; a non-success HTTP
response and a payload whose success flag is false return no manifest with
status `idle` (no failure state); and in all cases `perform_update` with no
manifest returns a success result with the "no update available" message,
as when already up to date. -/
theorem no_manifest_treated_as_no_update :
    ((check_for_updates CheckOutcome.timeout).manifest = none ∧
      (check_for_updates CheckOutcome.timeout).status = UpdateStatus.failed) ∧
    (∀ (st : Nat) (payload : CheckPayload), st ≠ 200 →
      (check_for_updates (CheckOutcome.response st payload)).manifest = none ∧
      (check_for_updates (CheckOutcome.response st payload)).status = UpdateStatus.idle) ∧
    (∀ payload : CheckPayload, payload.success = false →
      (check_for_updates (CheckOutcome.response 200 payload)).manifest = none ∧
      (check_for_updates (CheckOutcome.response 200 payload)).status = UpdateStatus.idle) ∧
    (∀ (md5Of : String → String) (fs : LocalFs) (download : FileUpdate → Option String)
        (writeOk backupOk : FileUpdate → Bool),
      (perform_update md5Of fs none download writeOk backupOk).success = true ∧
      (perform_update md5Of fs none download writeOk backupOk).message = "没有可用更新") := by
  refine ⟨⟨rfl, rfl⟩, ?_, ?_, ?_⟩
  · intro st payload h
    constructor <;> simp [check_for_updates, h]
  · intro payload h
    constructor <;> simp [check_for_updates, h]
  · intro md5Of fs download writeOk backupOk
    exact ⟨rfl, rfl⟩

theorem no_manifest_treated_as_no_update_witness :
    ((check_for_updates (CheckOutcome.response 502 { success := true })).manifest = none ∧
      (check_for_updates (CheckOutcome.response 502 { success := true })).status
        = UpdateStatus.idle) ∧
    ((check_for_updates (CheckOutcome.response 200 { success := false })).manifest = none ∧
      (check_for_updates (CheckOutcome.response 200 { success := false })).status
        = UpdateStatus.idle) ∧
    ((perform_update sampleMd5 sampleFs none sampleDownload (fun _ => true)
        (fun _ => true)).success = true) := by
  refine ⟨?_, ?_, ?_⟩
  · exact no_manifest_treated_as_no_update.2.1 502 { success := true } (by decide)
  · exact no_manifest_treated_as_no_update.2.2.1 { success := false } rfl
  · exact (no_manifest_treated_as_no_update.2.2.2 sampleMd5 sampleFs sampleDownload
      (fun _ => true) (fun _ => true)).1

/-- C9: every key of `get_local_file_hashes` — hence every path in the
persisted ledger's `files` map — is the forward-slash normalization of a
local file's relative path and is not matched by the exclusion set, even
though excluded files may exist locally and match the scan patterns. -/
theorem ledger_keys_not_excluded (fs : LocalFs) (version : String)
    (updated_files : List String) (k v : String)
    (h : (k, v) ∈ (save_file_hashes fs version updated_files).files) :
    is_excluded k = false ∧ ∃ p, (p, v) ∈ fs ∧ k = fwdSlash p := by
  have hmem : (k, v) ∈ get_local_file_hashes fs := h
  rw [get_local_file_hashes, List.mem_flatMap] at hmem
  rcases hmem with ⟨pat, _, hmem⟩
  rw [List.mem_filterMap] at hmem
  rcases hmem with ⟨e, he, heq⟩
  rcases e with ⟨p, d⟩
  by_cases hex : is_excluded (fwdSlash p) = true
  · simp [hex] at heq
  · have hexf : is_excluded (fwdSlash p) = false := Bool.eq_false_iff.mpr hex
    simp [hexf] at heq
    rcases heq with ⟨hk, hv⟩
    refine ⟨by rw [← hk]; exact hexf, p, ?_, hk.symm⟩
    rw [hv] at he
    exact (List.mem_filter.mp he).1

theorem ledger_keys_not_excluded_witness :
    is_excluded "core.py" = false ∧
    ∃ p, (p, "h1") ∈ [("core.py", "h1"), ("data\\x.py", "h2")] ∧
      "core.py" = fwdSlash p :=
  ledger_keys_not_excluded [("core.py", "h1"), ("data\\x.py", "h2")] "v" []
    "core.py" "h1" (by decide)

end AutoUpdater
